import Mathlib

/-!
Verification of the live route-table component of the mapshot `serve`
command (`src/cmd/serve.go`).

The embedding models:

* `findShots` (Discovery): `filepath.EvalSymlinks` followed by a
  `filepath.Walk` over a directory tree, collecting one `ShotInfo` per
  entry whose base name is `mapshot.json`.
* `updateMux` (scan-build-publish cycle): builds a fresh route table from
  the scan result and installs it under the policy
  `if shots != nil || s.mux == nil`.
* `newServer`, the watcher delay, and the JSON marshalling of the
  `/shots.json` payload (`json.Marshal(map[string]interface{}{"all": shots})`
  with Go's `encoding/json` struct-tag semantics: `name,omitempty`,
  `path,omitempty`, unexported `fsPath` never serialized).

Filesystem model: a tree of entries (`Entry`/`Forest`).  A walk carries the
path of an entry as the list of path components below the resolved root
`realDir` (real filesystems forbid the separator character inside a single
component name, so `filepath.Base` of such a path is its last component and
`filepath.Dir` drops the last component; `filepath.Rel(realDir, realDir ++
sep ++ c1 ++ sep ++ ... ++ ck)` is `c1 ++ sep ++ ... ++ ck`, and
`filepath.Rel(realDir, realDir)` is `"."`).  Go's nil slice is modelled by
the empty list: in `findShots` the slice `shots` is built only by `append`
starting from a nil `var`, so it is nil exactly when it is empty.
-/

namespace Mapshot

/-- Decidable equality for `Except`, used to evaluate the model on
concrete inputs. -/
instance {ε α : Type} [DecidableEq ε] [DecidableEq α] : DecidableEq (Except ε α) :=
  fun a b =>
    match a, b with
    | Except.error x, Except.error y =>
      if h : x = y then Decidable.isTrue (by rw [h])
      else Decidable.isFalse (fun g => h (by injection g))
    | Except.error _, Except.ok _ => Decidable.isFalse (fun g => by injection g)
    | Except.ok _, Except.error _ => Decidable.isFalse (fun g => by injection g)
    | Except.ok x, Except.ok y =>
      if h : x = y then Decidable.isTrue (by rw [h])
      else Decidable.isFalse (fun g => h (by injection g))

/-- ShotInfo mirrors the Go struct: exported `Name` and `Path` (JSON tags
`name,omitempty` and `path,omitempty`) and unexported `fsPath`. -/
structure ShotInfo where
  name : String
  path : String
  fsPath : String
deriving DecidableEq

/-- The fixed marker file name compared against `filepath.Base(path)`. -/
def markerName : String := "mapshot.json"

/-- One-character string for the platform path separator. -/
def sepStr (sep : Char) : String := String.singleton sep

/-- Model of `filepath.ToSlash`: replace every separator by a forward
slash. -/
def toSlash (sep : Char) (s : String) : String :=
  String.mk (s.data.map (fun c => if c = sep then '/' else c))

/-- Split a character list on every occurrence of `sep` (used to take the
base and parent of the resolved root path string). -/
def splitChar (sep : Char) : List Char → List (List Char)
  | [] => [[]]
  | c :: cs =>
    match splitChar sep cs with
    | [] => [[]]
    | g :: gs => if c = sep then [] :: g :: gs else (c :: g) :: gs

/-- Join character groups with `sep` between them. -/
def joinChar (sep : Char) : List (List Char) → List Char
  | [] => []
  | [g] => g
  | g :: gs => g ++ sep :: joinChar sep gs

/-- Model of `filepath.Base` on the resolved root string (which has no
trailing separator): its last separator-delimited element. -/
def rootBase (sep : Char) (s : String) : String :=
  String.mk (((splitChar sep s.data).getLast?).getD [])

/-- Model of `filepath.Dir` on the resolved root string: everything before
its last element.  (Volume-name handling of Windows paths is out of scope;
this case is reached only when the resolved root itself is named
`mapshot.json`.) -/
def parentOf (sep : Char) (s : String) : String :=
  String.mk (joinChar sep ((splitChar sep s.data).dropLast))

/-- Model of `filepath.Base` for a visited path, given as the component
list below `realDir`: the last component, or the base of `realDir` itself
for the root invocation of the walk callback. -/
def baseAt (sep : Char) (realDir : String) (comps : List String) : String :=
  match comps.getLast? with
  | some c => c
  | none => rootBase sep realDir

/-- Join `realDir` with a component list (the full path of the directory
holding the marker, stored in `fsPath`). -/
def joinUnder (sep : Char) (realDir : String) (comps : List String) : String :=
  if comps = [] then realDir
  else realDir ++ sepStr sep ++ String.intercalate (sepStr sep) comps

/-- The walk callback body of `findShots` at one visited path.  Mirrors
`serve.go` lines 42-57: skip unless `filepath.Base(path) == "mapshot.json"`;
otherwise `shotPath := filepath.Dir(path)`, `name := filepath.Rel(realDir,
shotPath)` and one descriptor `{fsPath: shotPath, Name: name, Path:
"/data/" + filepath.ToSlash(name) + "/"}` is appended.  On this domain
`filepath.Rel` always succeeds (`"."` for the root itself, `".."` when the
root directory is itself named `mapshot.json`), so the log-and-skip branch
for a failed `Rel` is unreachable. -/
def shotAt (sep : Char) (realDir : String) (comps : List String) : List ShotInfo :=
  if baseAt sep realDir comps = markerName then
    let dirComps := comps.dropLast
    let name :=
      if comps = [] then ".."
      else if dirComps = [] then "."
      else String.intercalate (sepStr sep) dirComps
    let fsP := if comps = [] then parentOf sep realDir else joinUnder sep realDir dirComps
    [{ name := name, path := "/data/" ++ toSlash sep name ++ "/", fsPath := fsP }]
  else []

mutual
/-- A filesystem entry: a regular file, a directory with children (listed
in the lexical order `filepath.Walk` uses), or an entry on which the walk
callback is invoked with a non-nil error (e.g. a stat failure). -/
inductive Entry where
  | file (name : String)
  | broken (name : String) (msg : String)
  | dir (name : String) (children : Forest)

/-- A list of sibling entries. -/
inductive Forest where
  | nil
  | cons (e : Entry) (rest : Forest)
end

/-- Name of an entry (its final path component). -/
def entryName : Entry → String
  | .file n => n
  | .broken n _ => n
  | .dir n _ => n

mutual
/-- Model of `filepath.Walk(realDir, walkFn)` specialised to the callback
of `findShots`: the callback runs on every entry (directories included,
before their children), returns the error unchanged when invoked with one
(aborting the walk), and otherwise accumulates `shotAt`. -/
def walkEntry (sep : Char) (realDir : String) (comps : List String) :
    Entry → Except String (List ShotInfo)
  | .file _ => Except.ok (shotAt sep realDir comps)
  | .broken _ msg => Except.error msg
  | .dir _ cs =>
    match walkForest sep realDir comps cs with
    | Except.error m => Except.error m
    | Except.ok rest => Except.ok (shotAt sep realDir comps ++ rest)

/-- Walk the children of a directory in order, aborting on the first
error. -/
def walkForest (sep : Char) (realDir : String) (comps : List String) :
    Forest → Except String (List ShotInfo)
  | .nil => Except.ok []
  | .cons e es =>
    match walkEntry sep realDir (comps ++ [entryName e]) e with
    | Except.error m => Except.error m
    | Except.ok l =>
      match walkForest sep realDir comps es with
      | Except.error m => Except.error m
      | Except.ok r => Except.ok (l ++ r)
end

/-- A filesystem state: the base directory argument, the result of
`filepath.EvalSymlinks(baseDir)`, and the tree rooted at the resolved
directory. -/
structure FS where
  baseDir : String
  resolve : Except String String
  root : Entry

/-- Model of `findShots` (`serve.go` lines 31-63): resolve the root, then
walk it.  On a walk error the Go code does `return nil, err`; the `Except`
value models exactly that pair (an error is returned with a nil list,
never with a partial list). -/
def findShots (sep : Char) (fs : FS) : Except String (List ShotInfo) :=
  match fs.resolve with
  | Except.error e =>
    Except.error ("unable to eval symlinks for " ++ fs.baseDir ++ ": " ++ e)
  | Except.ok realDir => walkEntry sep realDir [] fs.root

mutual
/-- The error message of the first entry, in walk order, on which the
callback is invoked with a non-nil error; `none` when the walk traverses
the whole tree without error. -/
def firstErr : Entry → Option String
  | .file _ => none
  | .broken _ m => some m
  | .dir _ cs => firstErrForest cs

/-- First error among a list of siblings (and their subtrees). -/
def firstErrForest : Forest → Option String
  | .nil => none
  | .cons e es =>
    match firstErr e with
    | some m => some m
    | none => firstErrForest es
end

mutual
/-- Component-list paths of all entries visited by the walk, in visit
order (an entry before its children). -/
def visited (comps : List String) : Entry → List (List String)
  | .file _ => [comps]
  | .broken _ _ => [comps]
  | .dir _ cs => comps :: visitedForest comps cs

/-- Visited paths of a sibling list. -/
def visitedForest (comps : List String) : Forest → List (List String)
  | .nil => []
  | .cons e es => visited (comps ++ [entryName e]) e ++ visitedForest comps es
end

mutual
/-- Characterization of the walk: it returns the first callback error when
there is one, and otherwise the concatenation of the callback's
contributions over every visited entry. -/
theorem walkEntry_eq (sep : Char) (realDir : String) :
    (e : Entry) → (comps : List String) →
    walkEntry sep realDir comps e =
      (match firstErr e with
       | some m => Except.error m
       | none => Except.ok ((visited comps e).flatMap (shotAt sep realDir)))
  | .file n, comps => by
    simp [walkEntry, firstErr, visited]
  | .broken n m, comps => by
    simp [walkEntry, firstErr, visited]
  | .dir n cs, comps => by
    have ih := walkForest_eq sep realDir cs comps
    simp only [walkEntry, firstErr, visited, ih]
    cases h : firstErrForest cs with
    | none => simp [List.flatMap_cons]
    | some m => simp

/-- Forest version of `walkEntry_eq`. -/
theorem walkForest_eq (sep : Char) (realDir : String) :
    (cs : Forest) → (comps : List String) →
    walkForest sep realDir comps cs =
      (match firstErrForest cs with
       | some m => Except.error m
       | none => Except.ok ((visitedForest comps cs).flatMap (shotAt sep realDir)))
  | .nil, comps => by
    simp [walkForest, firstErrForest, visitedForest]
  | .cons e es, comps => by
    have ih1 := walkEntry_eq sep realDir e (comps ++ [entryName e])
    have ih2 := walkForest_eq sep realDir es comps
    simp only [walkForest, firstErrForest, visitedForest, ih1, ih2]
    cases h1 : firstErr e with
    | some m => simp
    | none =>
      cases h2 : firstErrForest es with
      | some m => simp
      | none => simp [List.flatMap_append]
end

/-- The callback contributes exactly one descriptor at a visited path when
the base name there is `mapshot.json`, and none otherwise. -/
theorem shotAt_length (sep : Char) (realDir : String) (comps : List String) :
    (shotAt sep realDir comps).length =
      (if baseAt sep realDir comps = markerName then 1 else 0) := by
  unfold shotAt
  split <;> simp_all

/-- Every descriptor the callback produces relates its fields as the
source constructs them: `path` is `"/data/"` followed by the
slash-converted `name` followed by `"/"`. -/
theorem shotAt_path (sep : Char) (realDir : String) (comps : List String)
    (s : ShotInfo) (hs : s ∈ shotAt sep realDir comps) :
    s.path = "/data/" ++ toSlash sep s.name ++ "/" := by
  unfold shotAt at hs
  split at hs
  · simp only [List.mem_singleton] at hs
    subst hs
    rfl
  · simp at hs

/-- Comma separator used by the JSON encoder. -/
def commaStr : String := ","

/-- Lower-case hex digit. -/
def hexDigit (n : Nat) : Char :=
  if n < 10 then Char.ofNat (48 + n) else Char.ofNat (87 + n)

/-- Escaping of one character by Go's `encoding/json` string encoder (with
its default HTML escaping of `<`, `>`, `&`). -/
def jsonEscapeChar (c : Char) : String :=
  if c = '"' then "\\\""
  else if c = '\\' then "\\\\"
  else if c = '<' then "\\u003c"
  else if c = '>' then "\\u003e"
  else if c = '&' then "\\u0026"
  else if c = '\n' then "\\n"
  else if c = '\r' then "\\r"
  else if c = '\t' then "\\t"
  else if c.toNat < 32 then
    String.mk (['\\', 'u', '0', '0', hexDigit (c.toNat / 16), hexDigit (c.toNat % 16)])
  else if c.toNat = 8232 then "\\u2028"
  else if c.toNat = 8233 then "\\u2029"
  else String.singleton c

/-- A JSON string literal for `s`. -/
def jsonQuote (s : String) : String :=
  "\"" ++ String.join (s.data.map jsonEscapeChar) ++ "\""

/-- Go `json.Marshal` of one `ShotInfo` value: fields in struct order with
tags `name,omitempty` and `path,omitempty`; the unexported `fsPath` is
never serialized. -/
def marshalShot (s : ShotInfo) : String :=
  let fields :=
    (if s.name = "" then [] else ["\"name\":" ++ jsonQuote s.name]) ++
    (if s.path = "" then [] else ["\"path\":" ++ jsonQuote s.path])
  "\x7b" ++ String.intercalate commaStr fields ++ "\x7d"

/-- Go `json.Marshal` of the `shots` slice: a nil slice (the empty list in
this model) marshals to `null`, anything else to an array. -/
def marshalShotList (l : List ShotInfo) : String :=
  if l = [] then "null"
  else "[" ++ String.intercalate commaStr (l.map marshalShot) ++ "]"

/-- Go `json.Marshal(map[string]interface{}{"all": shots})`: an object
with the single key `all`. -/
def marshalAll (shots : List ShotInfo) : String :=
  "\x7b\"all\":" ++ marshalShotList shots ++ "\x7d"

/-- The response of the `/shots.json` handler: it sets the Content-Type
header and writes the serialized payload. -/
structure Response where
  contentType : String
  body : String
deriving DecidableEq

/-- The scan-dependent part of the `http.ServeMux` built by `updateMux`:
one `StripPrefix`+`FileServer` handler per shot (keyed by `shot.Path`,
serving `shot.fsPath`) and the `/shots.json` handler.  The remaining
registrations (`/` and `/map/`) install the fixed external frontend
handler and carry no scan-dependent state, so they are not part of the
model. -/
structure RouteTable where
  dataRoutes : List (String × String)
  shotsJson : Response
deriving DecidableEq

/-- Table construction inside `updateMux` (`serve.go` lines 107-128).  In
the source `json.Marshal` of this payload cannot fail (only strings are
serialized), so the `data = nil` fallback branch is unreachable and the
marshaller is total here. -/
def buildMux (shots : List ShotInfo) : RouteTable :=
  { dataRoutes := shots.map (fun s => (s.path, s.fsPath))
  , shotsJson := { contentType := "application/json", body := marshalAll shots } }

/-- The Go slice `shots` held by `updateMux` after the error check: on a
scan error it is set to nil (the empty list in this model). -/
def goShots (scan : Except String (List ShotInfo)) : List ShotInfo :=
  match scan with
  | Except.error _ => []
  | Except.ok l => l

/-- One scan-build-publish cycle (`Server.updateMux`, lines 100-137):
build a fresh table, then install it under the source's guard
`if shots != nil || s.mux == nil`.  A nil Go slice is the empty list, so
the guard is `shots ≠ [] ∨ cur = none`. -/
def updateMux (scan : Except String (List ShotInfo)) (cur : Option RouteTable) :
    Option RouteTable :=
  if goShots scan ≠ [] ∨ cur = none then some (buildMux (goShots scan)) else cur

/-- Server construction (`newServer`, lines 75-82): start with no table
(`s.mux == nil`) and run one synchronous `updateMux` with the given first
scan result. -/
def newServer (scan0 : Except String (List ShotInfo)) : Option RouteTable :=
  updateMux scan0 none

/-- The published-table reference after construction with first scan
`scan0` followed by the watcher cycles `scans`, in order. -/
def serverAfter (scan0 : Except String (List ShotInfo))
    (scans : List (Except String (List ShotInfo))) : Option RouteTable :=
  scans.foldl (fun cur sc => updateMux sc cur) (newServer scan0)

/-- The watcher's sleep before a cycle (`Server.watch`, line 90):
`time.Duration(8000+rand.Int63n(2000)) * time.Millisecond`, in
milliseconds, as a function of the jitter drawn by `rand.Int63n(2000)`
(which lies in `[0, 2000)`). -/
def watchDelayMs (jitter : Nat) : Nat := 8000 + jitter

/-- The (name, urlPath) projection of a descriptor, the fields serialized
by the listing endpoint. -/
def projNP (s : ShotInfo) : String × String := (s.name, s.path)

/-- Publishing never clears the reference: `updateMux` returns the fresh
table or keeps the previous non-nil one. -/
theorem updateMux_isSome (sc : Except String (List ShotInfo))
    (cur : Option RouteTable) : (updateMux sc cur).isSome := by
  unfold updateMux
  cases cur with
  | none => simp
  | some t => split <;> simp

/-- Folding publish steps over any starting reference that is non-nil
keeps it non-nil. -/
theorem foldl_updateMux_isSome :
    (scans : List (Except String (List ShotInfo))) → (init : Option RouteTable) →
    init.isSome →
    (scans.foldl (fun cur sc => updateMux sc cur) init).isSome
  | [], _, h => h
  | sc :: scans, init, _ =>
    foldl_updateMux_isSome scans (updateMux sc init) (updateMux_isSome sc init)

/-- Serializing a shot ignores its `fsPath` field. -/
theorem marshalShot_fsPath (s : ShotInfo) (x : String) :
    marshalShot { name := s.name, path := s.path, fsPath := x } = marshalShot s := rfl

/-- Mapping the serializer over a list with rewritten `fsPath` fields
gives the same strings. -/
theorem map_marshalShot_fsPath (f : ShotInfo → String) :
    (l : List ShotInfo) →
    (l.map (fun s => ({ name := s.name, path := s.path, fsPath := f s } : ShotInfo))).map marshalShot
      = l.map marshalShot
  | [] => rfl
  | a :: l => by
    simp only [List.map_cons, map_marshalShot_fsPath f l, marshalShot_fsPath]

mutual
/-- Number of regular-file entries named `mapshot.json` in a tree (the
entries the specification designates as markers). -/
def regularMarkerCount : Entry → Nat
  | .file n => if n = markerName then 1 else 0
  | .broken _ _ => 0
  | .dir _ cs => regularMarkerCountForest cs

/-- Forest version of `regularMarkerCount`. -/
def regularMarkerCountForest : Forest → Nat
  | .nil => 0
  | .cons e es => regularMarkerCount e + regularMarkerCountForest es
end

/-- Example tree from the specification: `worlds/alpha/mapshot.json` and
`worlds/beta/mapshot.json` below the resolved root. -/
def twoWorldsRoot : Entry :=
  Entry.dir ("script-output")
    (Forest.cons
      (Entry.dir ("worlds")
        (Forest.cons (Entry.dir ("alpha") (Forest.cons (Entry.file ("mapshot.json")) Forest.nil))
          (Forest.cons (Entry.dir ("beta") (Forest.cons (Entry.file ("mapshot.json")) Forest.nil))
            Forest.nil)))
      Forest.nil)

/-- Filesystem state for the two-worlds example. -/
def fsTwoWorlds : FS :=
  { baseDir := "script-output"
  , resolve := Except.ok ("/fact/script-output")
  , root := twoWorldsRoot }

/-- Descriptor of the `worlds/alpha` artifact set in the two-worlds
example. -/
def alphaShot : ShotInfo :=
  { name := "worlds/alpha"
  , path := "/data/worlds/alpha/"
  , fsPath := "/fact/script-output/worlds/alpha" }

/-- Descriptor of the `worlds/beta` artifact set. -/
def betaShot : ShotInfo :=
  { name := "worlds/beta"
  , path := "/data/worlds/beta/"
  , fsPath := "/fact/script-output/worlds/beta" }

/-- Expected scan result of the two-worlds example. -/
def twoWorldsShots : List ShotInfo := [alphaShot, betaShot]

/-- A tree with no marker at all: one world directory without a
`mapshot.json`.  Scanning it succeeds with zero descriptors. -/
def fsNoShots : FS :=
  { baseDir := "script-output"
  , resolve := Except.ok ("/fact/script-output")
  , root := Entry.dir ("script-output")
      (Forest.cons (Entry.dir ("worlds") Forest.nil) Forest.nil) }

/-- A tree whose only entry named `mapshot.json` is a directory, not a
regular file. -/
def fsDirMarker : FS :=
  { baseDir := "out"
  , resolve := Except.ok ("/srv/out")
  , root := Entry.dir ("out")
      (Forest.cons (Entry.dir ("mapshot.json") Forest.nil) Forest.nil) }

/-- A tree containing an entry on which the walk callback receives an
error. -/
def fsBroken : FS :=
  { baseDir := "out"
  , resolve := Except.ok ("/srv/out")
  , root := Entry.dir ("out")
      (Forest.cons
        (Entry.dir ("worlds")
          (Forest.cons (Entry.broken ("alpha") ("lstat alpha: permission denied"))
            Forest.nil))
        Forest.nil) }

/-- The two-worlds tree under a Windows-style root with `'\'` as the
platform separator. -/
def fsBackslash : FS :=
  { baseDir := "C:\\out"
  , resolve := Except.ok ("C:\\out")
  , root := Entry.dir ("out")
      (Forest.cons
        (Entry.dir ("worlds")
          (Forest.cons (Entry.dir ("alpha") (Forest.cons (Entry.file ("mapshot.json")) Forest.nil))
            Forest.nil))
        Forest.nil) }

/-- C1: the claim says a successful scan with zero descriptors replaces
the published table unconditionally, and the source's own comment says
"Only update if reading did not fail".  Evaluating the code at the failing
input: scanning `fsNoShots` succeeds with zero descriptors, yet the
publish step keeps the stale table (the Go guard `shots != nil` is false
because a successful empty scan leaves the slice nil), and the kept table
differs from the table the successful scan built. -/
theorem c1_empty_scan_keeps_stale_table :
    findShots '/' fsNoShots = Except.ok []
    ∧ updateMux (findShots '/' fsNoShots) (some (buildMux twoWorldsShots))
        = some (buildMux twoWorldsShots)
    ∧ buildMux twoWorldsShots ≠ buildMux [] := by
  refine ⟨by decide, by decide, by decide⟩

/-- C2: when Discovery returns an error and a table is already published,
the publish step leaves the published reference exactly as it was. -/
theorem c2_error_keeps_table (e : String) (t : RouteTable) :
    updateMux (Except.error e) (some t) = some t := by
  simp [updateMux, goShots]

/-- C3 counterexample: the claim says a failing initial scan aborts
process startup, but construction with a failing first scan completes and
publishes the table built from the empty descriptor list (`newServer`
cannot fail; the first `updateMux` installs its mux because `s.mux` is
still nil). -/
theorem c3_counterexample :
    newServer (Except.error ("lstat /out: permission denied")) = some (buildMux []) := by
  decide

/-- C3 amended: no Discovery failure is fatal.  A failing initial scan
still publishes a table (built from the empty list), and no publish step
ever leaves the server without a table, so no Discovery failure
terminates construction, the watcher loop, or the process. -/
theorem c3_amended :
    (∀ e : String, newServer (Except.error e) = some (buildMux []))
    ∧ ∀ (sc : Except String (List ShotInfo)) (cur : Option RouteTable),
        (updateMux sc cur).isSome := by
  constructor
  · intro e
    simp [newServer, updateMux, goShots]
  · exact updateMux_isSome

/-- C4 counterexample: the claim requires a marker to be a regular file,
but the source checks only `filepath.Base(path) != "mapshot.json"` with no
file-mode test: in a tree whose only `mapshot.json` entry is a directory
(zero regular files of that name), Discovery still returns one
descriptor. -/
theorem c4_counterexample :
    findShots '/' fsDirMarker =
      Except.ok [{ name := ".", path := "/data/./", fsPath := "/srv/out" }]
    ∧ regularMarkerCount fsDirMarker.root = 0 := by
  refine ⟨by decide, by rfl⟩

/-- C4 amended: an entry is treated as a marker exactly when its base
name equals `mapshot.json`, whether it is a regular file or a directory.
On a scan with no traversal errors the result is the concatenation, over
every visited entry, of the callback's contribution, and that contribution
is exactly one descriptor (for the entry's containing directory) when the
entry's base name is the marker name and none otherwise. -/
theorem c4_amended (sep : Char) (fs : FS) (realDir : String)
    (h0 : fs.resolve = Except.ok realDir) (h : firstErr fs.root = none) :
    findShots sep fs = Except.ok ((visited [] fs.root).flatMap (shotAt sep realDir))
    ∧ ∀ comps : List String,
        (shotAt sep realDir comps).length =
          (if baseAt sep realDir comps = markerName then 1 else 0) := by
  constructor
  · unfold findShots
    rw [h0]
    dsimp only
    rw [walkEntry_eq, h]
  · exact shotAt_length sep realDir

/-- Witness for C4 amended at the two-worlds example. -/
theorem c4_amended_witness :
    findShots '/' fsTwoWorlds =
      Except.ok ((visited [] fsTwoWorlds.root).flatMap (shotAt '/' ("/fact/script-output"))) :=
  (c4_amended '/' fsTwoWorlds ("/fact/script-output") (by rfl) (by rfl)).1

/-- C5 counterexample: with `'\'` as the platform separator, the
descriptor of `worlds\alpha` has a `name` containing a backslash (not
forward slashes regardless of platform), and its `urlPath` is not
`"/data/" + name + "/"` (the source applies `filepath.ToSlash` to `name`
before building `Path`, but stores `Name` unconverted). -/
theorem c5_counterexample :
    findShots '\\' fsBackslash =
      Except.ok [{ name := "worlds\\alpha"
                 , path := "/data/worlds/alpha/"
                 , fsPath := "C:\\out\\worlds\\alpha" }]
    ∧ "/data/" ++ "worlds\\alpha" ++ "/" ≠ "/data/worlds/alpha/" := by
  refine ⟨by decide, by decide⟩

/-- C5 amended: `name` is the marker's containing directory relative to
the canonical root in the platform's separators; `urlPath` equals
`"/data/"` followed by the slash-converted `name` (`filepath.ToSlash`)
followed by `"/"`, for every descriptor of every successful scan. -/
theorem c5_amended (sep : Char) (fs : FS) (l : List ShotInfo)
    (h : findShots sep fs = Except.ok l) :
    ∀ s ∈ l, s.path = "/data/" ++ toSlash sep s.name ++ "/" := by
  intro s hs
  unfold findShots at h
  cases hr : fs.resolve with
  | error e =>
    rw [hr] at h
    exact absurd h (by simp)
  | ok realDir =>
    rw [hr] at h
    dsimp only at h
    rw [walkEntry_eq] at h
    cases hf : firstErr fs.root with
    | some m =>
      rw [hf] at h
      exact absurd h (by simp)
    | none =>
      rw [hf] at h
      have hl : (visited [] fs.root).flatMap (shotAt sep realDir) = l := by
        injection h
      rw [← hl] at hs
      obtain ⟨comps, _, hmem⟩ := List.mem_flatMap.mp hs
      exact shotAt_path sep realDir comps s hmem

/-- Witness for C5 amended at the two-worlds example. -/
theorem c5_amended_witness :
    alphaShot.path = "/data/" ++ toSlash '/' alphaShot.name ++ "/" :=
  c5_amended '/' fsTwoWorlds twoWorldsShots (by decide) alphaShot (by decide)

/-- C6: if the walk callback is invoked with an error for some entry,
Discovery aborts with the first such error; the `Except` result carries no
descriptor list in that case, matching the source's `return nil, err` (a
partial list is never returned alongside an error). -/
theorem c6_walk_error_aborts (sep : Char) (fs : FS) (realDir m : String)
    (h0 : fs.resolve = Except.ok realDir) (h : firstErr fs.root = some m) :
    findShots sep fs = Except.error m := by
  unfold findShots
  rw [h0]
  dsimp only
  rw [walkEntry_eq, h]

/-- Witness for C6 at a tree with an unreadable entry. -/
theorem c6_walk_error_aborts_witness :
    findShots '/' fsBroken = Except.error ("lstat alpha: permission denied") :=
  c6_walk_error_aborts '/' fsBroken ("/srv/out") ("lstat alpha: permission denied")
    (by rfl) (by rfl)

/-- C7: Discovery is a pure function of the filesystem state: two runs
against the same unchanged state return descriptor lists with the same
(name, urlPath) projection (the embedding's walk mutates nothing, so the
two results are outright equal). -/
theorem c7_discovery_pure (sep : Char) (fs : FS) (l1 l2 : List ShotInfo)
    (h1 : findShots sep fs = Except.ok l1) (h2 : findShots sep fs = Except.ok l2) :
    l1.map projNP = l2.map projNP := by
  rw [h1] at h2
  have h : l1 = l2 := by injection h2
  rw [h]

/-- Witness for C7 at the two-worlds example. -/
theorem c7_discovery_pure_witness :
    twoWorldsShots.map projNP = twoWorldsShots.map projNP :=
  c7_discovery_pure '/' fsTwoWorlds twoWorldsShots twoWorldsShots (by decide) (by decide)

/-- C8: for every descriptor list, the built table's `/shots.json`
handler responds with Content-Type `application/json` and the JSON
serialization of the single-key object `{"all": shots}`, and that
serialization never depends on any descriptor's `fsPath` field (only
`name` and `path` are serialized). -/
theorem c8_shots_json (shots : List ShotInfo) :
    (buildMux shots).shotsJson.contentType = "application/json"
    ∧ (buildMux shots).shotsJson.body = marshalAll shots
    ∧ ∀ f : ShotInfo → String,
        marshalAll (shots.map (fun s => ({ name := s.name, path := s.path, fsPath := f s } : ShotInfo)))
          = marshalAll shots := by
  refine ⟨rfl, rfl, ?_⟩
  intro f
  unfold marshalAll marshalShotList
  rw [map_marshalShot_fsPath]
  rcases shots with _ | ⟨a, l⟩ <;> simp

/-- C9: on every watcher iteration the randomized sleep is at least 8000
milliseconds and strictly less than 10000 milliseconds (8 seconds plus a
jitter below 2 seconds). -/
theorem c9_delay_bounds (j : Nat) (h : j < 2000) :
    8000 ≤ watchDelayMs j ∧ watchDelayMs j < 10000 := by
  unfold watchDelayMs
  omega

/-- Witness for C9 at jitter 500. -/
theorem c9_delay_bounds_witness :
    8000 ≤ watchDelayMs 500 ∧ watchDelayMs 500 < 10000 :=
  c9_delay_bounds 500 (by decide)

/-- C10: once construction returns, the published reference is non-nil
(even when the first scan failed), and it stays non-nil after every
subsequent publish, so the dispatch path (`ServeHTTP` reads `s.mux` under
the lock and calls it) never sees a nil table. -/
theorem c10_mux_never_nil (scan0 : Except String (List ShotInfo))
    (scans : List (Except String (List ShotInfo))) :
    (serverAfter scan0 scans).isSome := by
  unfold serverAfter
  exact foldl_updateMux_isSome scans (newServer scan0) (updateMux_isSome scan0 none)

end Mapshot
example : Mapshot.walkEntry '/' "/out" [] (.dir "out" (.cons (.file "mapshot.json") .nil)) =
    Except.ok [{ name := ".", path := "/data/./", fsPath := "/out" }] := by rfl

example : Mapshot.walkEntry '/' "/out" [] (.dir "out" (.cons (.broken "x" "boom") .nil)) =
    Except.error "boom" := by decide
